import Mathlib

/-!
Verification development for the self-update subsystem of the coder-cli
repository (package `internal/cmd`, file with `updater.Run`, plus the
sibling `doUpdate` variant).  The Go source is shallowly embedded:

* semantic versions and their parser mirror `github.com/blang/semver/v4`
  (`Parse`/`Make`, `Compare`, `FinalizeVersion`);
* archive extraction mirrors `extractFromArchive`,
  `extractFromZipArchive` and `extractFromTGZArchive`, over archives
  represented at the level the Go standard library hands them to this
  code (a zip central directory is a list of named entries; a gzip-tar
  stream is a sequence of tar headers with contents);
* the buffered-writer behaviour of `bufio.Writer` (including the missing
  `Flush` calls in the source and the `io.Copy` fast paths through
  `io.WriterTo` / `io.ReaderFrom`) is modelled explicitly, because the
  observable behaviour of the pipeline depends on it;
* the update pipeline `updater.Run` is embedded as a function from the
  injected collaborators (HTTP getter, coder client, confirm function,
  in-memory filesystem with fault injection at the `vfs.Filesystem`
  seam) to an outcome recording the result, the final filesystem and the
  number of release-archive fetches performed.

All definitions are executable, so every concrete scenario below is
settled by evaluation.
-/

/-! ### Character-list utilities (Go `strings` helpers used by blang/semver) -/

/-- Split a character list at every occurrence of `sep`, like Go
`strings.Split`; the result is never empty. -/
def splitOnChar (sep : Char) : List Char → List (List Char)
  | [] => [[]]
  | c :: cs =>
    match splitOnChar sep cs with
    | [] => if c = sep then [[], []] else [[c]]
    | h :: t => if c = sep then [] :: h :: t else (c :: h) :: t

/-- Break a character list at the first occurrence of `sep`, like Go
`strings.IndexRune` followed by slicing; `none` when `sep` is absent. -/
def breakAtChar (sep : Char) : List Char → Option (List Char × List Char)
  | [] => none
  | c :: cs =>
    if c = sep then some ([], cs)
    else
      match breakAtChar sep cs with
      | none => none
      | some (a, b) => some (c :: a, b)

/-- Re-join dot-separated components, used to model the last component of
Go `strings.SplitN(s, ".", 3)`. -/
def joinDots : List (List Char) → List Char
  | [] => []
  | [x] => x
  | x :: y :: rest => x ++ '.' :: joinDots (y :: rest)

/-- Go `strings.SplitN(s, ".", 3)`: the first two dots split, the third
component keeps any remaining dots.  `none` when there are fewer than
three components. -/
def splitN3Dots (cs : List Char) : Option (List Char × List Char × List Char) :=
  match splitOnChar '.' cs with
  | a :: b :: c :: rest => some (a, b, joinDots (c :: rest))
  | _ => none

/-- Decimal value of a digit string (Go `strconv.ParseUint` on an
all-digit string; the uint64 range is modelled by `Nat`, which is
faithful for every version number that appears in this development). -/
def natOfDigits (cs : List Char) : Nat :=
  cs.foldl (fun n c => n * 10 + (c.toNat - '0'.toNat)) 0

/-- blang/semver `hasLeadingZeroes`: length above one and a leading `'0'`. -/
def hasLeadingZeroes : List Char → Bool
  | '0' :: _ :: _ => true
  | _ => false

/-- Characters allowed in blang/semver pre-release / build identifiers
(`alphas + numbers`, where `alphas` includes `'-'`). -/
def isSemverAlphanum (c : Char) : Bool :=
  c.isAlpha || c.isDigit || c = '-'

/-! ### blang/semver v4: versions, parsing, comparison -/

/-- A pre-release identifier: numeric or alphanumeric
(blang/semver `PRVersion`). -/
inductive PRVersion where
  | num (n : Nat)
  | alphanum (s : String)
deriving DecidableEq

/-- A parsed semantic version (blang/semver `Version`).  Build metadata is
kept because `Parse` validates it, although `Compare` ignores it. -/
structure SemVersion where
  major : Nat
  minor : Nat
  patch : Nat
  pre : List PRVersion
  build : List String
deriving DecidableEq

/-- Parse one of the three numeric components, mirroring blang/semver:
a non-digit character, a leading zero, or an empty component is an
error (`strconv.ParseUint` rejects the empty string). -/
def parseVersionNum (cs : List Char) : Except String Nat :=
  if cs.all (fun c => c.isDigit) = false then
    Except.error "Invalid character(s) found in version number"
  else if hasLeadingZeroes cs then
    Except.error "Version number must not contain leading zeroes"
  else
    match cs with
    | [] => Except.error "empty version number"
    | _ => Except.ok (natOfDigits cs)

/-- blang/semver `NewPRVersion`: an all-digit identifier with no leading
zeroes is numeric; otherwise it must consist of `[0-9A-Za-z-]`. -/
def parsePRVersion (cs : List Char) : Except String PRVersion :=
  match cs with
  | [] => Except.error "Prerelease is empty"
  | _ =>
    if cs.all (fun c => c.isDigit) then
      if hasLeadingZeroes cs then
        Except.error "Numeric PreRelease version must not contain leading zeroes"
      else Except.ok (PRVersion.num (natOfDigits cs))
    else if cs.all isSemverAlphanum then
      Except.ok (PRVersion.alphanum (String.mk cs))
    else Except.error "Invalid character(s) found in prerelease"

/-- Parse the dot-separated pre-release identifiers. -/
def parsePRList : List (List Char) → Except String (List PRVersion)
  | [] => Except.ok []
  | p :: ps => do
    let v ← parsePRVersion p
    let vs ← parsePRList ps
    Except.ok (v :: vs)

/-- blang/semver `NewBuildVersion`: non-empty, `[0-9A-Za-z-]` only. -/
def parseBuildVersion (cs : List Char) : Except String String :=
  match cs with
  | [] => Except.error "Buildversion is empty"
  | _ =>
    if cs.all isSemverAlphanum then Except.ok (String.mk cs)
    else Except.error "Invalid character(s) found in build meta data"

/-- Parse the dot-separated build identifiers. -/
def parseBuildList : List (List Char) → Except String (List String)
  | [] => Except.ok []
  | p :: ps => do
    let v ← parseBuildVersion p
    let vs ← parseBuildList ps
    Except.ok (v :: vs)

/-- blang/semver `Parse` on the third `SplitN` component: build metadata
is split off at the first `'+'`, then the pre-release at the first `'-'`
of what remains; `none` marks an absent section (no validation runs). -/
def splitPatchSections (cs : List Char) :
    List Char × Option (List (List Char)) × Option (List (List Char)) :=
  let (beforeBuild, buildParts) :=
    match breakAtChar '+' cs with
    | some (a, b) => (a, some (splitOnChar '.' b))
    | none => (cs, none)
  let (patchPart, preParts) :=
    match breakAtChar '-' beforeBuild with
    | some (a, b) => (a, some (splitOnChar '.' b))
    | none => (beforeBuild, none)
  (patchPart, preParts, buildParts)

/-- blang/semver `Parse` (aliased as `Make` in the source): empty input is
an error, the string must have `major.minor.patch` components, the
numeric components reject non-digits and leading zeroes, and the
pre-release / build sections are validated identifier by identifier. -/
def semverParseChars (cs : List Char) : Except String SemVersion :=
  match cs with
  | [] => Except.error "Version string empty"
  | _ =>
    match splitN3Dots cs with
    | none => Except.error "No Major.Minor.Patch elements found"
    | some (majC, minC, rest) => do
      let major ← parseVersionNum majC
      let minor ← parseVersionNum minC
      let (patchC, preParts, buildParts) := splitPatchSections rest
      let patch ← parseVersionNum patchC
      let pre ←
        match preParts with
        | none => Except.ok []
        | some ps => parsePRList ps
      let build ←
        match buildParts with
        | none => Except.ok []
        | some bs => parseBuildList bs
      Except.ok ⟨major, minor, patch, pre, build⟩

/-- `semver.Make` as called by the updater. -/
def semverMake (s : String) : Except String SemVersion :=
  semverParseChars s.data

/-- Three-way comparison on `Nat`, with Go's `-1 / 0 / 1` convention. -/
def cmpNat (a b : Nat) : Int :=
  if a = b then 0 else if a < b then -1 else 1

/-- blang/semver `PRVersion.Compare`: numeric identifiers sort below
alphanumeric ones; numeric compare by value, alphanumeric by string
order. -/
def prCompare : PRVersion → PRVersion → Int
  | PRVersion.num a, PRVersion.num b => cmpNat a b
  | PRVersion.num _, PRVersion.alphanum _ => -1
  | PRVersion.alphanum _, PRVersion.num _ => 1
  | PRVersion.alphanum a, PRVersion.alphanum b =>
    if a = b then 0 else if a < b then -1 else 1

/-- Pairwise comparison of pre-release identifier lists; a strict prefix
sorts first (blang/semver `Version.Compare`, loop and tail cases). -/
def prListCompare : List PRVersion → List PRVersion → Int
  | [], [] => 0
  | [], _ :: _ => -1
  | _ :: _, [] => 1
  | a :: as, b :: bs =>
    let c := prCompare a b
    if c = 0 then prListCompare as bs else c

/-- blang/semver `Version.Compare`: major, minor, patch, then pre-release
(a version without pre-release identifiers sorts above one with them);
build metadata is ignored. -/
def semverCompare (v o : SemVersion) : Int :=
  if v.major ≠ o.major then cmpNat v.major o.major
  else if v.minor ≠ o.minor then cmpNat v.minor o.minor
  else if v.patch ≠ o.patch then cmpNat v.patch o.patch
  else
    match v.pre, o.pre with
    | [], [] => 0
    | [], _ :: _ => 1
    | _ :: _, [] => -1
    | a :: as, b :: bs => prListCompare (a :: as) (b :: bs)

/-- blang/semver `FinalizeVersion`: `"major.minor.patch"`, dropping
pre-release and build metadata. -/
def finalizeVersion (v : SemVersion) : String :=
  Nat.repr v.major ++ "." ++ Nat.repr v.minor ++ "." ++ Nat.repr v.patch

/-! ### Go `bufio.Writer` and the `io.Copy` fast paths

The source creates `bufio.NewWriter` wrappers and copies into them with
`io.Copy`, in three places:

* `extractFromZipArchive` / `extractFromTGZArchive`: `bw :=
  bufio.NewWriter(&b)` with `b` a `bytes.Buffer`, `io.Copy(bw, rc)`, and
  `b.Bytes()` is returned **without** `bw.Flush()`.  `io.Copy` dispatches
  to `bw.ReadFrom` (for the tar case, via `tar.Reader.WriteTo`, which
  itself copies through an `io.Copy` whose destination is `bw`), and
  `bufio.Writer.ReadFrom` with an empty buffer delegates wholesale to the
  underlying writer when it implements `io.ReaderFrom` — `bytes.Buffer`
  does — so every byte reaches `b` despite the missing flush.
* `updater.Run` staging write: `fsWriter := bufio.NewWriter(updatedBin)`
  with `updatedBin` a `vfs` file (which does not implement
  `io.ReaderFrom`), and `io.Copy(fsWriter, bytes.NewReader(updatedBinary))`.
  `io.Copy` dispatches to `bytes.Reader.WriteTo`, which issues a single
  `fsWriter.Write` of the whole slice; `fsWriter` is never flushed and
  `updatedBin` never closed, so only what `bufio.Writer.Write` pushes
  past its 4096-byte buffer ever reaches the file.

The state of a `bufio.Writer` is its internal buffer (`pending`, capacity
4096) plus the bytes already handed to the underlying writer (`out`). -/

/-- Go `bufio.Writer` state: `pending` is the internal buffer contents,
`out` the bytes already written through to the underlying writer. -/
structure BufioWriter where
  pending : List Nat
  out : List Nat
deriving DecidableEq

/-- `bufio.defaultBufSize`. -/
def bufioDefaultSize : Nat := 4096

/-- A fresh `bufio.NewWriter`. -/
def BufioWriter.fresh : BufioWriter := ⟨[], []⟩

/-- Go `bufio.Writer.Write` for a single call, assuming the underlying
writer accepts every byte (true for `vfs` in-memory files and
`bytes.Buffer`): while the data exceeds the available buffer space, an
empty buffer takes the large-write fast path (one direct underlying
write of everything), and a partially filled buffer is topped up and
flushed; whatever remains within capacity stays in the buffer. -/
def bufioWriterWrite (w : BufioWriter) (p : List Nat) : BufioWriter :=
  if p.length ≤ bufioDefaultSize - w.pending.length then
    { w with pending := w.pending ++ p }
  else if w.pending = [] then
    { w with out := w.out ++ p }
  else
    let k := bufioDefaultSize - w.pending.length
    let flushedOut := w.out ++ w.pending ++ p.take k
    let rest := p.drop k
    if rest.length ≤ bufioDefaultSize then ⟨rest, flushedOut⟩
    else ⟨[], flushedOut ++ rest⟩

/-- Go `bufio.Writer.ReadFrom` when the underlying writer implements
`io.ReaderFrom` and the buffer is empty: the whole source is delegated
to the underlying writer (this is the path `io.Copy` takes in the
extraction functions, with `bytes.Buffer` underlying). -/
def bufioReadFromDelegated (w : BufioWriter) (src : List Nat) : BufioWriter :=
  { w with out := w.out ++ src }

/-- `io.Copy(bw, rc)` for `bw := bufio.NewWriter(&b)`, `b : bytes.Buffer`,
followed by `b.Bytes()` with no flush: by the `ReadFrom` delegation the
buffer receives the entire stream. -/
def copyViaBufioToBytesBuffer (src : List Nat) : List Nat :=
  (bufioReadFromDelegated BufioWriter.fresh src).out

/-- `io.Copy(fsWriter, bytes.NewReader(p))` for `fsWriter :=
bufio.NewWriter(f)` with `f` a `vfs` file, with no flush and no close
afterwards: `bytes.Reader.WriteTo` performs one `fsWriter.Write(p)`, and
only the bytes that escape the bufio buffer reach the file. -/
def stagedBytesReachingFile (p : List Nat) : List Nat :=
  (bufioWriterWrite BufioWriter.fresh p).out

/-! ### Archive payloads, content sniffing, extraction

`extractFromArchive` receives the downloaded bytes and sniffs them with
`http.DetectContentType`, which inspects magic numbers only: a payload
produced by `archive/zip` begins with `PK\x03\x04` and sniffs as
`application/zip`; a gzip stream begins with `\x1f\x8b\x08` and sniffs
as `application/x-gzip`.  The payload is therefore represented at the
level the Go standard library delivers it to this code: a zip payload
carries its central-directory entry list, a gzip-tar payload the
sequence of tar headers (name, type flag, content), and any other
payload just its sniffed content type. -/

/-- One zip central-directory entry as `zip.Reader.File` exposes it. -/
structure ZipEntry where
  name : String
  content : List Nat
deriving DecidableEq

/-- The tar header type flag, as classified by
`hdr.FileInfo().Mode()`: only `reg` satisfies `IsRegular()`. -/
inductive TarType where
  | reg
  | dir
  | symlink
deriving DecidableEq

/-- One tar entry as `tar.Reader.Next` exposes it. -/
structure TarEntry where
  name : String
  typ : TarType
  content : List Nat
deriving DecidableEq

/-- A downloaded payload together with what
`http.DetectContentType` can observe of it. -/
inductive ArchivePayload where
  | zip (entries : List ZipEntry)
  | tgz (entries : List TarEntry)
  | raw (contentType : String)
deriving DecidableEq

/-- `http.DetectContentType` on the payload's magic bytes. -/
def detectContentType : ArchivePayload → String
  | ArchivePayload.zip _ => "application/zip"
  | ArchivePayload.tgz _ => "application/x-gzip"
  | ArchivePayload.raw ct => ct

/-- Go `path.Base` (as used by `tar.Header.FileInfo().Name()`): strip
trailing slashes, then keep everything after the last slash; the empty
string gives `"."` and an all-slash string gives `"/"`. -/
def goPathBase (s : String) : String :=
  match s.data with
  | [] => "."
  | cs =>
    let rev := cs.reverse.dropWhile (fun c => c = '/')
    match rev with
    | [] => "/"
    | r => String.mk ((r.takeWhile (fun c => c ≠ '/')).reverse)

/-- The scan loop of `extractFromZipArchive`: first entry whose `Name`
equals the requested path exactly. -/
def findZipEntry (path : String) : List ZipEntry → Option ZipEntry
  | [] => none
  | f :: fs => if f.name = path then some f else findZipEntry path fs

/-- The scan loop of `extractFromTGZArchive`: first header whose
`FileInfo().Name()` (base name) equals the requested path **and** whose
mode is a regular file. -/
def findTarEntry (path : String) : List TarEntry → Option TarEntry
  | [] => none
  | e :: es =>
    if goPathBase e.name = path ∧ e.typ = TarType.reg then some e
    else findTarEntry path es

/-- `extractFromZipArchive`: opening a non-zip payload as a zip fails;
otherwise scan for the entry by exact name, error when absent
(`could not find path %q in zip archive`), and on a hit copy its content
through the unflushed bufio writer into the `bytes.Buffer` (which, by
the `ReadFrom` delegation, receives all of it). -/
def extractFromZipArchive (path : String) (archive : ArchivePayload) :
    Except String (List Nat) :=
  match archive with
  | ArchivePayload.zip entries =>
    match findZipEntry path entries with
    | none => Except.error ("could not find path \"" ++ path ++ "\" in zip archive")
    | some zf => Except.ok (copyViaBufioToBytesBuffer zf.content)
  | _ => Except.error "failed to open zip archive"

/-- `extractFromTGZArchive`: gunzipping a non-gzip payload fails;
otherwise scan tar headers for a regular file with the requested base
name, copy its content into the `bytes.Buffer` and stop.  When no header
matches, the loop runs to `io.EOF` and the function returns the empty
buffer **with a nil error**. -/
def extractFromTGZArchive (path : String) (archive : ArchivePayload) :
    Except String (List Nat) :=
  match archive with
  | ArchivePayload.tgz entries =>
    match findTarEntry path entries with
    | some e => Except.ok (copyViaBufioToBytesBuffer e.content)
    | none => Except.ok []
  | _ => Except.error "failed to gunzip archive"

/-- `extractFromArchive`: dispatch on the sniffed content type; anything
other than zip or gzip is `unknown archive type: <type>`. -/
def extractFromArchive (path : String) (archive : ArchivePayload) :
    Except String (List Nat) :=
  let contentType := detectContentType archive
  if contentType = "application/zip" then extractFromZipArchive path archive
  else if contentType = "application/x-gzip" then extractFromTGZArchive path archive
  else Except.error ("unknown archive type: " ++ contentType)

/-! ### The `vfs.Filesystem` seam and the in-memory filesystem

`updater` holds a `vfs.Filesystem`; tests back it with `memfs.Create()`.
The pipeline uses `Stat`, `OpenFile(path, O_RDWR|O_CREATE|O_TRUNC, perm)`
and `Rename`.  The in-memory filesystem is a finite map from paths to
files (permission bits and content); `OpenFile` with `O_CREATE|O_TRUNC`
creates the file with the given permission or truncates an existing one
(whose permission is kept), and `Rename` moves a file over the
destination.  Because the pipeline is written against the interface, the
backend may also fail; a `Rename` fault can be injected, which is how a
real backend's cross-device or permission failure surfaces through the
seam. -/

/-- A file of the in-memory filesystem: permission bits and content. -/
structure MemFile where
  perm : Nat
  content : List Nat
deriving DecidableEq

/-- Filesystem state behind the `vfs.Filesystem` seam: the path-to-file
map plus an injectable `Rename` fault. -/
structure Fs where
  entries : List (String × MemFile)
  renameError : Option String
deriving DecidableEq

/-- `Stat`-style lookup in the path map. -/
def fsLookup : List (String × MemFile) → String → Option MemFile
  | [], _ => none
  | kv :: rest, p => if kv.1 = p then some kv.2 else fsLookup rest p

/-- Drop a path from the map. -/
def fsRemove (l : List (String × MemFile)) (p : String) : List (String × MemFile) :=
  l.filter (fun kv => !(kv.1 == p))

/-- Set a path in the map (replacing any previous file). -/
def fsSet (l : List (String × MemFile)) (p : String) (f : MemFile) :
    List (String × MemFile) :=
  (p, f) :: fsRemove l p

/-! ### The update pipeline `updater.Run` -/

/-- The response an injected `getter` produces for `Get(url)` (status
code and downloaded payload). -/
structure HTTPResponse where
  statusCode : Nat
  body : ArchivePayload

/-- The `updater` struct: injected HTTP getter, coder-client
`APIVersion` result, confirm function (result string and error, of which
`Run` only inspects the error), scratch directory (a field of the
struct that `Run` never reads), executable path and filesystem. -/
structure Updater where
  httpGet : String → Except String HTTPResponse
  apiVersion : Except String String
  confirm : String → String × Option String
  tempdir : String
  executablePath : String
  fs : Fs

/-- Outcome of one `Run`: the returned error (or success), the final
path map, and how many release-archive `Get` calls were issued. -/
structure RunOutcome where
  result : Except String Unit
  entries : List (String × MemFile)
  fetches : Nat

/-- The rendered failure of a declined/errored confirmation:
`clog.Fatal("failed to confirm update", clog.Tipf(...))`. -/
def confirmFatalMsg : String :=
  "failed to confirm update: use \"--force\" to update without confirmation"

/-- `makeDownloadURL`: the release URL template with the extension
chosen by OS — the `switch` sets `ext` to `"tar.gz"` for `"linux"` and
to `".zip"` otherwise, and the template appends it after a literal dot. -/
def makeDownloadURL (version ostype archtype : String) : String :=
  let ext := if ostype = "linux" then "tar.gz" else ".zip"
  "https://github.com/cdr/coder-cli/releases/download/v" ++ version ++
    "/coder-cli-" ++ ostype ++ "-" ++ archtype ++ "." ++ ext

/-- The staging and atomic-replace tail of `updater.Run` (source lines
171–189): open `executablePath + ".new"` with `O_RDWR|O_CREATE|O_TRUNC`
and the preflight-observed permission, copy the extracted bytes through
a `bufio.Writer` that is never flushed (so only `stagedBytesReachingFile`
reaches the file), then `Rename` the staging file over the executable.
No cleanup runs on the failure path. -/
def runStageAndReplace (u : Updater) (stat : MemFile) (updatedBinary : List Nat) :
    RunOutcome :=
  let stagingPath := u.executablePath ++ ".new"
  let stagedPerm :=
    match fsLookup u.fs.entries stagingPath with
    | some old => old.perm
    | none => stat.perm
  let staged : MemFile := ⟨stagedPerm, stagedBytesReachingFile updatedBinary⟩
  let entries2 := fsSet u.fs.entries stagingPath staged
  match u.fs.renameError with
  | some _ => ⟨Except.error "failed to update coder binary in-place", entries2, 1⟩
  | none =>
    ⟨Except.ok (), fsSet (fsRemove entries2 stagingPath) u.executablePath staged, 1⟩

/-- The fetch/extract middle of `updater.Run` (source lines 139–169):
build the download URL, issue the single `Get`, treat a transport error
or non-200 status as fatal, copy the body into the in-memory buffer
(this copy **is** flushed in the source, so the payload arrives intact)
and extract the `coder` entry. -/
def runFetch (u : Updater) (desired : SemVersion) (goos goarch : String)
    (stat : MemFile) : RunOutcome :=
  let downloadURL := makeDownloadURL (finalizeVersion desired) goos goarch
  match u.httpGet downloadURL with
  | Except.error _ =>
    ⟨Except.error ("failed to fetch URL " ++ downloadURL), u.fs.entries, 1⟩
  | Except.ok resp =>
    if resp.statusCode ≠ 200 then
      ⟨Except.error ("failed to fetch release: URL " ++ downloadURL ++
        " returned status code " ++ Nat.repr resp.statusCode), u.fs.entries, 1⟩
    else
      match extractFromArchive "coder" resp.body with
      | Except.error _ =>
        ⟨Except.error "failed to extract coder binary from archive", u.fs.entries, 1⟩
      | Except.ok updatedBinary => runStageAndReplace u stat updatedBinary

/-- The confirmation gate of `updater.Run` (source lines 132–137): with
the force flag the gate is skipped; otherwise the injected confirm
function is called on the rendered label and a non-nil error aborts with
the force-flag tip. -/
def runConfirmAndFetch (u : Updater) (force : Bool) (desired : SemVersion)
    (goos goarch : String) (stat : MemFile) : RunOutcome :=
  if force then runFetch u desired goos goarch stat
  else
    let label := "Update coder-cli to version " ++ finalizeVersion desired ++ "?"
    match (u.confirm label).2 with
    | some _ => ⟨Except.error confirmFatalMsg, u.fs.entries, 0⟩
    | none => runFetch u desired goos goarch stat

/-- The no-op short-circuit of `updater.Run` (source lines 123–130):
when the running version parses and compares equal to the desired one,
return success immediately; when it fails to parse, log a warning and
continue. -/
def runPostResolve (u : Updater) (force : Bool) (desired : SemVersion)
    (runningVersion goos goarch : String) (stat : MemFile) : RunOutcome :=
  match semverMake runningVersion with
  | Except.ok current =>
    if semverCompare desired current = 0 then ⟨Except.ok (), u.fs.entries, 0⟩
    else runConfirmAndFetch u force desired goos goarch stat
  | Except.error _ => runConfirmAndFetch u force desired goos goarch stat

/-- `updater.Run` (source lines 90–189): preflight stat of the running
binary and write-permission check; the **unconditional** `APIVersion`
call, whose error is fatal even when an explicit version argument was
given; version resolution from the argument or the reported string; the
no-op short-circuit; the confirmation gate; fetch, extraction, staging
and rename.  `runningVersion` stands for the linker-injected
`version.Version`, `goos`/`goarch` for `runtime.GOOS`/`runtime.GOARCH`. -/
def run (u : Updater) (force : Bool) (versionArg runningVersion goos goarch : String) :
    RunOutcome :=
  match fsLookup u.fs.entries u.executablePath with
  | none => ⟨Except.error "preflight: cannot stat current binary", u.fs.entries, 0⟩
  | some stat =>
    if stat.perm &&& 0o222 = 0 then
      ⟨Except.error "preflight: missing write permission on current binary", u.fs.entries, 0⟩
    else
      match u.apiVersion with
      | Except.error _ => ⟨Except.error "fetch api version", u.fs.entries, 0⟩
      | Except.ok apiVersion =>
        if versionArg = "" then
          match semverMake apiVersion with
          | Except.error _ =>
            ⟨Except.error "coder reported invalid version", u.fs.entries, 0⟩
          | Except.ok desired =>
            runPostResolve u force desired runningVersion goos goarch stat
        else
          match semverMake versionArg with
          | Except.error _ =>
            ⟨Except.error "invalid version argument provided", u.fs.entries, 0⟩
          | Except.ok desired =>
            runPostResolve u force desired runningVersion goos goarch stat

/-! ### Concrete collaborators for scenario evaluation -/

/-- A getter that answers every URL with status 200 and the given
payload. -/
def okGetter (a : ArchivePayload) : String → Except String HTTPResponse :=
  fun _ => Except.ok ⟨200, a⟩

/-- The ten-byte binary of the end-to-end scenario. -/
def sampleBinary : List Nat := [10, 11, 12, 13, 14, 15, 16, 17, 18, 19]

/-- The updater of the end-to-end scenario: remote reports `1.3.0`, the
release archive is a valid zip whose `coder` entry holds `sampleBinary`,
the in-memory filesystem holds the running binary (mode `0o755`,
writable) at `/home/coder/bin/coder`, and the confirm function accepts. -/
def sampleUpdater : Updater :=
  { httpGet := okGetter (ArchivePayload.zip [⟨"coder", sampleBinary⟩])
    apiVersion := Except.ok "1.3.0"
    confirm := fun _ => ("y", none)
    tempdir := "/tmp"
    executablePath := "/home/coder/bin/coder"
    fs := ⟨[("/home/coder/bin/coder", ⟨0o755, [1, 1, 1]⟩)], none⟩ }

/-- The ten-byte content used for the C2 round-trip witness. -/
def c2Content : List Nat := [1, 2, 3, 4, 5, 6, 7, 8, 9, 10]

/-- An entry content one byte above the 100 MiB cap named in the spec. -/
def oversizeContent : List Nat := List.replicate (100 * 1024 * 1024 + 1) 0

/-- `io.Copy` through `io.LimitReader(rc, n)` (the `doUpdate` staging
copy): at most the first `n` bytes are delivered, and reaching the limit
is not an error. -/
def goLimitedCopy (n : Nat) (src : List Nat) : List Nat := src.take n

/-- The sample updater with a confirm function that declines by
returning the `promptui` abort error. -/
def decliningUpdater : Updater :=
  { sampleUpdater with confirm := fun _ => ("", some "ErrAbort") }

/-- The sample updater with an unreachable coder instance: the
`APIVersion` call fails. -/
def offlineUpdater : Updater :=
  { sampleUpdater with apiVersion := Except.error "connection refused" }

/-- The sample updater over a backend whose `Rename` fails (for example
a cross-device rename surfacing through the `vfs.Filesystem` seam). -/
def faultyRenameUpdater : Updater :=
  { sampleUpdater with fs := { sampleUpdater.fs with renameError := some "EXDEV" } }

/-! ### Sanity evaluations of the embedding on small inputs -/

example : semverMake "1.2.0" =
    Except.ok ⟨1, 2, 0, [], []⟩ := by rfl

example : semverMake "1.3.0-rc.1+meta" =
    Except.ok ⟨1, 3, 0, [PRVersion.alphanum "rc", PRVersion.num 1], ["meta"]⟩ := by rfl

example : semverMake "1.02.0" = Except.error "Version number must not contain leading zeroes" := by rfl

example : semverCompare ⟨1, 3, 0, [], []⟩ ⟨1, 2, 0, [], []⟩ = 1 := by decide

example : finalizeVersion ⟨1, 3, 0, [PRVersion.num 7], []⟩ = "1.3.0" := by rfl

example : stagedBytesReachingFile [0, 1, 2, 3, 4, 5, 6, 7, 8, 9] = [] := by rfl

example : copyViaBufioToBytesBuffer [0, 1, 2, 3] = [0, 1, 2, 3] := by rfl

example : extractFromArchive "coder" (ArchivePayload.zip [⟨"coder", [1, 2, 3]⟩]) =
    Except.ok [1, 2, 3] := by rfl

example : extractFromArchive "coder" (ArchivePayload.tgz
    [⟨"coder", TarType.dir, []⟩, ⟨"bin/coder", TarType.reg, [4, 5]⟩]) =
    Except.ok [4, 5] := by rfl

example : extractFromArchive "coder" (ArchivePayload.raw "text/plain; charset=utf-8") =
    Except.error "unknown archive type: text/plain; charset=utf-8" := by rfl

example : (run sampleUpdater true "" "1.2.0" "linux" "amd64").result = Except.ok () := by rfl

example : (run sampleUpdater true "1.23.4" "1.23.4" "linux" "amd64").fetches = 0 := by rfl

/-! ### Helper lemmas -/

/-- Looking a path up after removing it finds nothing. -/
theorem fsLookup_fsRemove_self (l : List (String × MemFile)) (p : String) :
    fsLookup (fsRemove l p) p = none := by
  induction l with
  | nil => rfl
  | cons kv t ih =>
    simp only [fsRemove, List.filter_cons] at ih ⊢
    by_cases h : kv.1 = p
    · simp [h, ih]
    · simp [h, fsLookup, ih]

/-- Removing one path does not change lookups of another. -/
theorem fsLookup_fsRemove_ne (l : List (String × MemFile)) (p q : String)
    (h : q ≠ p) : fsLookup (fsRemove l p) q = fsLookup l q := by
  induction l with
  | nil => rfl
  | cons kv t ih =>
    simp only [fsRemove, List.filter_cons] at ih ⊢
    by_cases hp : kv.1 = p
    · have hq : ¬(kv.1 = q) := by
        intro hq
        exact h (hq ▸ hp ▸ rfl)
      simp [hp, fsLookup, hq, ih, if_neg (Ne.symm h)]
    · simp [hp, fsLookup, ih]

/-- The tar scan skips any leading entries that do not match (in
particular directories and symlinks named like the target). -/
theorem findTarEntry_append_no_match (p : String) (l1 l2 : List TarEntry)
    (h : ∀ x ∈ l1, ¬(goPathBase x.name = p ∧ x.typ = TarType.reg)) :
    findTarEntry p (l1 ++ l2) = findTarEntry p l2 := by
  induction l1 with
  | nil => rfl
  | cons a t ih =>
    have ha := h a (by simp)
    have ht : ∀ x ∈ t, ¬(goPathBase x.name = p ∧ x.typ = TarType.reg) :=
      fun x hx => h x (by simp [hx])
    simp only [List.cons_append, findTarEntry, if_neg ha]
    exact ih ht

/-- `runPostResolve` (and everything after it) never reads the
`apiVersion` field of the updater struct. -/
theorem runPostResolve_apiVersion_irrelevant
    (hg : String → Except String HTTPResponse) (av1 av2 : Except String String)
    (cf : String → String × Option String) (tp ep : String) (fs0 : Fs)
    (force : Bool) (desired : SemVersion) (rv g ar : String) (stat : MemFile) :
    runPostResolve ⟨hg, av1, cf, tp, ep, fs0⟩ force desired rv g ar stat =
      runPostResolve ⟨hg, av2, cf, tp, ep, fs0⟩ force desired rv g ar stat := rfl

/-! ### Claim theorems -/

/-- Claim C1: in the end-to-end scenario (running `1.2.0`, remote
`1.3.0`, force set, HTTP 200 with a valid zip whose `coder` entry holds
the ten known bytes, writable `0o755` binary on the in-memory
filesystem) the pipeline does end in rename success and the preflight
permission mode is preserved — but the file at the executable path holds
**no** bytes rather than the ten-byte binary: the staging `bufio.Writer`
is never flushed, and a ten-byte write stays entirely inside its
4096-byte buffer, so the claim's "contains exactly B" fails on the code. -/
theorem c1_endtoend_installs_empty_file :
    (run sampleUpdater true "" "1.2.0" "linux" "amd64").result = Except.ok () ∧
    fsLookup (run sampleUpdater true "" "1.2.0" "linux" "amd64").entries
      "/home/coder/bin/coder" = some ⟨0o755, []⟩ ∧
    stagedBytesReachingFile sampleBinary = [] ∧
    sampleBinary ≠ [] := by
  exact ⟨rfl, rfl, rfl, by decide⟩

/-- Claim C2: extraction round-trips.  For a zip archive whose scan finds
the entry `coder` with content `B`, extraction returns exactly `B`; for
a gzip-tar archive in which the first regular-file entry with base name
`coder` holds `B` — regardless of any preceding non-matching entries,
including directories or symlinks named `coder` — extraction returns
exactly `B`. -/
theorem c2_extract_roundtrip (B : List Nat) (zs : List ZipEntry) (zf : ZipEntry)
    (t1 t2 : List TarEntry) (e : TarEntry)
    (hz : findZipEntry "coder" zs = some zf) (hzB : zf.content = B)
    (hskip : ∀ x ∈ t1, ¬(goPathBase x.name = "coder" ∧ x.typ = TarType.reg))
    (hename : goPathBase e.name = "coder") (hereg : e.typ = TarType.reg)
    (heB : e.content = B) :
    extractFromArchive "coder" (ArchivePayload.zip zs) = Except.ok B ∧
    extractFromArchive "coder" (ArchivePayload.tgz (t1 ++ e :: t2)) = Except.ok B := by
  constructor
  · rw [show extractFromArchive "coder" (ArchivePayload.zip zs) =
        extractFromZipArchive "coder" (ArchivePayload.zip zs) from rfl]
    simp [extractFromZipArchive, hz, copyViaBufioToBytesBuffer,
      bufioReadFromDelegated, BufioWriter.fresh, hzB]
  · rw [show extractFromArchive "coder" (ArchivePayload.tgz (t1 ++ e :: t2)) =
        extractFromTGZArchive "coder" (ArchivePayload.tgz (t1 ++ e :: t2)) from rfl]
    simp only [extractFromTGZArchive]
    rw [findTarEntry_append_no_match "coder" t1 (e :: t2) hskip]
    simp only [findTarEntry, if_pos (And.intro hename hereg)]
    simp [copyViaBufioToBytesBuffer, bufioReadFromDelegated, BufioWriter.fresh, heB]

/-- Witness for C2 at a concrete archive pair: the zip holds `coder`
with the ten-byte content, and the tar stream has a directory and a
symlink named `coder` before the regular file `coder`. -/
theorem c2_extract_roundtrip_witness :
    (findZipEntry "coder" [⟨"coder", c2Content⟩] = some ⟨"coder", c2Content⟩ ∧
      (∀ x ∈ [(⟨"coder", TarType.dir, []⟩ : TarEntry), ⟨"coder", TarType.symlink, [7]⟩],
        ¬(goPathBase x.name = "coder" ∧ x.typ = TarType.reg)) ∧
      goPathBase "coder" = "coder") ∧
    (extractFromArchive "coder" (ArchivePayload.zip [⟨"coder", c2Content⟩]) =
        Except.ok c2Content ∧
      extractFromArchive "coder" (ArchivePayload.tgz
        ([(⟨"coder", TarType.dir, []⟩ : TarEntry), ⟨"coder", TarType.symlink, [7]⟩] ++
          (⟨"coder", TarType.reg, c2Content⟩ : TarEntry) :: [])) = Except.ok c2Content) :=
  ⟨⟨rfl, by decide, rfl⟩,
    c2_extract_roundtrip c2Content _ _ _ _ _ rfl rfl (by decide) rfl rfl rfl⟩

/-- Claim C3: for a gzip-tar archive with no regular-file entry named
`coder` the claim demands an entry-not-found error with no bytes; the
code instead returns success with an empty byte slice (the scan loop
ends at `io.EOF`, and the function returns the untouched buffer with a
nil error). -/
theorem c3_tgz_missing_entry_silent_success :
    extractFromArchive "coder" (ArchivePayload.tgz
      [⟨"coder", TarType.dir, []⟩, ⟨"README", TarType.reg, [1, 2]⟩]) =
      Except.ok [] := by rfl

/-- Claim C5: on the non-Linux path the code sets `ext` to `".zip"` and
the template appends it after a literal dot, producing a double-dot URL
`...coder-cli-darwin-amd64..zip` rather than the claimed
`...coder-cli-darwin-amd64.zip`; the Linux URL is formed as claimed. -/
theorem c5_nonlinux_url_has_double_dot :
    makeDownloadURL "1.3.0" "darwin" "amd64" =
      "https://github.com/cdr/coder-cli/releases/download/v1.3.0/coder-cli-darwin-amd64..zip" ∧
    makeDownloadURL "1.3.0" "linux" "amd64" =
      "https://github.com/cdr/coder-cli/releases/download/v1.3.0/coder-cli-linux-amd64.tar.gz" :=
  ⟨rfl, rfl⟩

/-- Claim C7 counterexample: extraction of an entry whose decompressed
size exceeds 100 MiB does not fail — it succeeds and returns all the
bytes (no size cap exists in `extractFromZipArchive`). -/
theorem c7_counterexample_oversize_succeeds :
    extractFromArchive "coder" (ArchivePayload.zip [⟨"coder", oversizeContent⟩]) =
      Except.ok oversizeContent ∧
    oversizeContent.length = 100 * 1024 * 1024 + 1 := by
  exact ⟨rfl, by rw [oversizeContent, List.length_replicate]⟩

/-- Claim C7 amended: no oversize failure is implemented anywhere.  In
`updater.Run`'s extractor a found entry's full content is returned
whatever its size (both formats); in `doUpdate` the staging copy instead
silently truncates an oversize entry to exactly the first 100 MiB and
carries on without error. -/
theorem c7_amended_no_cap_and_silent_truncation
    (zs : List ZipEntry) (zf : ZipEntry) (ts : List TarEntry) (tf : TarEntry)
    (c : List Nat)
    (hz : findZipEntry "coder" zs = some zf)
    (ht : findTarEntry "coder" ts = some tf)
    (hc : 100 * 1024 * 1024 < c.length) :
    extractFromArchive "coder" (ArchivePayload.zip zs) = Except.ok zf.content ∧
    extractFromArchive "coder" (ArchivePayload.tgz ts) = Except.ok tf.content ∧
    (goLimitedCopy (100 * 1024 * 1024) c).length = 100 * 1024 * 1024 ∧
    goLimitedCopy (100 * 1024 * 1024) c ≠ c := by
  refine ⟨?_, ?_, ?_, ?_⟩
  · rw [show extractFromArchive "coder" (ArchivePayload.zip zs) =
        extractFromZipArchive "coder" (ArchivePayload.zip zs) from rfl]
    simp [extractFromZipArchive, hz, copyViaBufioToBytesBuffer,
      bufioReadFromDelegated, BufioWriter.fresh]
  · rw [show extractFromArchive "coder" (ArchivePayload.tgz ts) =
        extractFromTGZArchive "coder" (ArchivePayload.tgz ts) from rfl]
    simp [extractFromTGZArchive, ht, copyViaBufioToBytesBuffer,
      bufioReadFromDelegated, BufioWriter.fresh]
  · simp [goLimitedCopy, List.length_take, Nat.min_eq_left (Nat.le_of_lt hc)]
  · intro hcontra
    have hlen := congrArg List.length hcontra
    simp [goLimitedCopy, List.length_take, Nat.min_eq_left (Nat.le_of_lt hc)] at hlen
    exact absurd (hlen ▸ hc) (lt_irrefl _)

/-- Witness for the amended C7 at concrete oversize archives. -/
theorem c7_amended_witness :
    (findZipEntry "coder" [⟨"coder", oversizeContent⟩] =
        some ⟨"coder", oversizeContent⟩ ∧
      findTarEntry "coder" [⟨"coder", TarType.reg, oversizeContent⟩] =
        some ⟨"coder", TarType.reg, oversizeContent⟩ ∧
      100 * 1024 * 1024 < oversizeContent.length) ∧
    (extractFromArchive "coder" (ArchivePayload.zip [⟨"coder", oversizeContent⟩]) =
        Except.ok oversizeContent ∧
      extractFromArchive "coder" (ArchivePayload.tgz
        [⟨"coder", TarType.reg, oversizeContent⟩]) = Except.ok oversizeContent ∧
      (goLimitedCopy (100 * 1024 * 1024) oversizeContent).length = 100 * 1024 * 1024 ∧
      goLimitedCopy (100 * 1024 * 1024) oversizeContent ≠ oversizeContent) :=
  ⟨⟨rfl, rfl, by rw [oversizeContent, List.length_replicate]; omega⟩,
    c7_amended_no_cap_and_silent_truncation
      [⟨"coder", oversizeContent⟩] ⟨"coder", oversizeContent⟩
      [⟨"coder", TarType.reg, oversizeContent⟩] ⟨"coder", TarType.reg, oversizeContent⟩
      oversizeContent rfl rfl
      (by rw [oversizeContent, List.length_replicate]; omega)⟩

/-- Claim C10: archive extraction is deterministic — two invocations on
the same entry name and payload produce the same result (the embedding
is a pure function of its two arguments; the Go source reads no state
besides them). -/
theorem c10_extraction_deterministic (path : String) (archive : ArchivePayload)
    (r1 r2 : Except String (List Nat))
    (h1 : r1 = extractFromArchive path archive)
    (h2 : r2 = extractFromArchive path archive) : r1 = r2 :=
  h1.trans h2.symm

/-- Witness for C10 at a concrete invocation pair. -/
theorem c10_extraction_deterministic_witness :
    ((Except.ok [1, 2, 3] : Except String (List Nat)) =
        extractFromArchive "coder" (ArchivePayload.zip [⟨"coder", [1, 2, 3]⟩]) ∧
      (Except.ok [1, 2, 3] : Except String (List Nat)) =
        extractFromArchive "coder" (ArchivePayload.zip [⟨"coder", [1, 2, 3]⟩])) ∧
    (Except.ok [1, 2, 3] : Except String (List Nat)) = Except.ok [1, 2, 3] :=
  ⟨⟨rfl, rfl⟩,
    c10_extraction_deterministic "coder" (ArchivePayload.zip [⟨"coder", [1, 2, 3]⟩])
      _ _ rfl rfl⟩

/-- Claim C4: when the desired version (explicit argument or remote
report, whichever the run uses) and the running version both parse and
compare equal, the pipeline short-circuits: success, no release-archive
fetch, no filesystem change. -/
theorem c4_equal_versions_noop (u : Updater) (force : Bool)
    (versionArg runningVersion goos goarch apiV : String) (stat : MemFile)
    (dv cv : SemVersion)
    (hstat : fsLookup u.fs.entries u.executablePath = some stat)
    (hw : ¬(stat.perm &&& 0o222 = 0))
    (hapi : u.apiVersion = Except.ok apiV)
    (hdv : semverMake (if versionArg = "" then apiV else versionArg) = Except.ok dv)
    (hcv : semverMake runningVersion = Except.ok cv)
    (heq : semverCompare dv cv = 0) :
    (run u force versionArg runningVersion goos goarch).result = Except.ok () ∧
    (run u force versionArg runningVersion goos goarch).entries = u.fs.entries ∧
    (run u force versionArg runningVersion goos goarch).fetches = 0 := by
  have hpost : runPostResolve u force dv runningVersion goos goarch stat =
      ⟨Except.ok (), u.fs.entries, 0⟩ := by
    simp [runPostResolve, hcv, heq]
  by_cases hv : versionArg = ""
  · rw [hv] at hdv ⊢
    simp at hdv
    simp [run, hstat, hw, hapi, hdv, hpost]
  · simp only [if_neg hv] at hdv
    simp [run, hstat, hw, hapi, hv, hdv, hpost]

/-- Witness for C4: explicit argument `1.23.4` with running version
`1.23.4` on the sample updater. -/
theorem c4_equal_versions_noop_witness :
    (fsLookup sampleUpdater.fs.entries sampleUpdater.executablePath =
        some ⟨0o755, [1, 1, 1]⟩ ∧
      ¬((0o755 : Nat) &&& 0o222 = 0) ∧
      sampleUpdater.apiVersion = Except.ok "1.3.0" ∧
      semverMake (if "1.23.4" = "" then "1.3.0" else "1.23.4") =
        Except.ok ⟨1, 23, 4, [], []⟩ ∧
      semverMake "1.23.4" = Except.ok ⟨1, 23, 4, [], []⟩ ∧
      semverCompare ⟨1, 23, 4, [], []⟩ ⟨1, 23, 4, [], []⟩ = 0) ∧
    ((run sampleUpdater true "1.23.4" "1.23.4" "linux" "amd64").result = Except.ok () ∧
      (run sampleUpdater true "1.23.4" "1.23.4" "linux" "amd64").entries =
        sampleUpdater.fs.entries ∧
      (run sampleUpdater true "1.23.4" "1.23.4" "linux" "amd64").fetches = 0) :=
  ⟨⟨rfl, by decide, rfl, by rfl, by rfl, by rfl⟩,
    c4_equal_versions_noop sampleUpdater true "1.23.4" "1.23.4" "linux" "amd64"
      "1.3.0" ⟨0o755, [1, 1, 1]⟩ ⟨1, 23, 4, [], []⟩ ⟨1, 23, 4, [], []⟩
      rfl (by decide) rfl (by rfl) (by rfl) (by rfl)⟩

/-- Claim C8: without the force flag, when the injected confirm function
signals a decline or failure — which, as with the `promptui`
`IsConfirm` prompt behind `defaultConfirm`, is a non-nil error — the
pipeline aborts before any fetch or filesystem mutation, and the
failure message carries the `--force` tip. -/
theorem c8_confirm_error_aborts (u : Updater)
    (versionArg runningVersion goos goarch apiV errVal : String) (stat : MemFile)
    (dv : SemVersion)
    (hstat : fsLookup u.fs.entries u.executablePath = some stat)
    (hw : ¬(stat.perm &&& 0o222 = 0))
    (hapi : u.apiVersion = Except.ok apiV)
    (hdv : semverMake (if versionArg = "" then apiV else versionArg) = Except.ok dv)
    (hnoop : ∀ cv, semverMake runningVersion = Except.ok cv → ¬(semverCompare dv cv = 0))
    (hconfirm : (u.confirm ("Update coder-cli to version " ++ finalizeVersion dv ++ "?")).2 =
      some errVal) :
    (run u false versionArg runningVersion goos goarch).result =
      Except.error confirmFatalMsg ∧
    (run u false versionArg runningVersion goos goarch).entries = u.fs.entries ∧
    (run u false versionArg runningVersion goos goarch).fetches = 0 ∧
    (∃ sl sr : String, confirmFatalMsg = sl ++ "--force" ++ sr) := by
  have hgate : runConfirmAndFetch u false dv goos goarch stat =
      ⟨Except.error confirmFatalMsg, u.fs.entries, 0⟩ := by
    simp [runConfirmAndFetch, hconfirm]
  have hpost : runPostResolve u false dv runningVersion goos goarch stat =
      ⟨Except.error confirmFatalMsg, u.fs.entries, 0⟩ := by
    cases hrun : semverMake runningVersion with
    | error e => simp [runPostResolve, hrun, hgate]
    | ok cv => simp [runPostResolve, hrun, hnoop cv hrun, hgate]
  refine ?_
  have hcore :
      (run u false versionArg runningVersion goos goarch).result =
        Except.error confirmFatalMsg ∧
      (run u false versionArg runningVersion goos goarch).entries = u.fs.entries ∧
      (run u false versionArg runningVersion goos goarch).fetches = 0 := by
    by_cases hv : versionArg = ""
    · rw [hv] at hdv ⊢
      simp at hdv
      simp [run, hstat, hw, hapi, hdv, hpost]
    · simp only [if_neg hv] at hdv
      simp [run, hstat, hw, hapi, hv, hdv, hpost]
  exact ⟨hcore.1, hcore.2.1, hcore.2.2,
    ⟨"failed to confirm update: use \"", "\" to update without confirmation", rfl⟩⟩

/-- Witness for C8: the declining updater, remote version `1.3.0`,
running `1.2.0`, no force flag. -/
theorem c8_confirm_error_aborts_witness :
    (fsLookup decliningUpdater.fs.entries decliningUpdater.executablePath =
        some ⟨0o755, [1, 1, 1]⟩ ∧
      ¬((0o755 : Nat) &&& 0o222 = 0) ∧
      decliningUpdater.apiVersion = Except.ok "1.3.0" ∧
      semverMake (if "" = "" then "1.3.0" else "") = Except.ok ⟨1, 3, 0, [], []⟩ ∧
      (∀ cv, semverMake "1.2.0" = Except.ok cv →
        ¬(semverCompare ⟨1, 3, 0, [], []⟩ cv = 0)) ∧
      (decliningUpdater.confirm
        ("Update coder-cli to version " ++ finalizeVersion ⟨1, 3, 0, [], []⟩ ++ "?")).2 =
        some "ErrAbort") ∧
    ((run decliningUpdater false "" "1.2.0" "linux" "amd64").result =
        Except.error confirmFatalMsg ∧
      (run decliningUpdater false "" "1.2.0" "linux" "amd64").entries =
        decliningUpdater.fs.entries ∧
      (run decliningUpdater false "" "1.2.0" "linux" "amd64").fetches = 0 ∧
      (∃ sl sr : String, confirmFatalMsg = sl ++ "--force" ++ sr)) :=
  ⟨⟨rfl, by decide, rfl, by rfl,
      fun cv hcv => by
        rw [show semverMake "1.2.0" =
          Except.ok (⟨1, 2, 0, [], []⟩ : SemVersion) from rfl] at hcv
        cases hcv
        decide,
      rfl⟩,
    c8_confirm_error_aborts decliningUpdater "" "1.2.0" "linux" "amd64" "1.3.0"
      "ErrAbort" ⟨0o755, [1, 1, 1]⟩ ⟨1, 3, 0, [], []⟩
      rfl (by decide) rfl (by rfl)
      (fun cv hcv => by
        rw [show semverMake "1.2.0" =
          Except.ok (⟨1, 2, 0, [], []⟩ : SemVersion) from rfl] at hcv
        cases hcv
        decide)
      rfl⟩

/-- Claim C6 counterexample: with an explicit version argument
(`1.3.0`), an error from the remote version lookup still aborts the run
(`fetch api version`), while the same run with the lookup succeeding
completes — so the lookup's result does affect the run, contrary to the
claim that it is bypassed. -/
theorem c6_counterexample_api_error_aborts_explicit_run :
    (run offlineUpdater true "1.3.0" "1.2.0" "linux" "amd64").result =
      Except.error "fetch api version" ∧
    (run { offlineUpdater with apiVersion := Except.ok "9.9.9" }
      true "1.3.0" "1.2.0" "linux" "amd64").result = Except.ok () :=
  ⟨rfl, rfl⟩

/-- Claim C6 amended: with a non-empty version argument the pipeline
parses the argument as the desired version and ignores the
remote-reported version **string** (two runs differing only in the
reported string behave identically) — but the remote lookup itself is
still performed unconditionally, and a lookup error aborts the run
before any fetch or filesystem change. -/
theorem c6_amended_explicit_version_ignores_reported_string (u : Updater)
    (force : Bool) (versionArg runningVersion goos goarch e s1 s2 : String)
    (stat : MemFile)
    (hv : ¬(versionArg = ""))
    (hstat : fsLookup u.fs.entries u.executablePath = some stat)
    (hw : ¬(stat.perm &&& 0o222 = 0)) :
    (u.apiVersion = Except.error e →
      (run u force versionArg runningVersion goos goarch).result =
        Except.error "fetch api version" ∧
      (run u force versionArg runningVersion goos goarch).entries = u.fs.entries ∧
      (run u force versionArg runningVersion goos goarch).fetches = 0) ∧
    run { u with apiVersion := Except.ok s1 } force versionArg runningVersion goos goarch =
      run { u with apiVersion := Except.ok s2 } force versionArg runningVersion goos goarch := by
  constructor
  · intro hapi
    simp [run, hstat, hw, hapi]
  · cases u with
    | mk hg av cf tp ep fs0 =>
      simp [run, hstat, hw, hv]
      cases h : semverMake versionArg with
      | error e2 => simp [h]
      | ok dv =>
        simp [h]
        exact runPostResolve_apiVersion_irrelevant hg (Except.ok s1) (Except.ok s2)
          cf tp ep fs0 force dv runningVersion goos goarch stat

/-- Witness for the amended C6 on the offline sample updater. -/
theorem c6_amended_explicit_version_witness :
    (¬(("1.3.0" : String) = "") ∧
      fsLookup offlineUpdater.fs.entries offlineUpdater.executablePath =
        some ⟨0o755, [1, 1, 1]⟩ ∧
      ¬((0o755 : Nat) &&& 0o222 = 0)) ∧
    ((offlineUpdater.apiVersion = Except.error "connection refused" →
      (run offlineUpdater true "1.3.0" "1.2.0" "linux" "amd64").result =
        Except.error "fetch api version" ∧
      (run offlineUpdater true "1.3.0" "1.2.0" "linux" "amd64").entries =
        offlineUpdater.fs.entries ∧
      (run offlineUpdater true "1.3.0" "1.2.0" "linux" "amd64").fetches = 0) ∧
    run { offlineUpdater with apiVersion := Except.ok "0.0.1" }
        true "1.3.0" "1.2.0" "linux" "amd64" =
      run { offlineUpdater with apiVersion := Except.ok "banana" }
        true "1.3.0" "1.2.0" "linux" "amd64") :=
  ⟨⟨by decide, rfl, by decide⟩,
    c6_amended_explicit_version_ignores_reported_string offlineUpdater true
      "1.3.0" "1.2.0" "linux" "amd64" "connection refused" "0.0.1" "banana"
      ⟨0o755, [1, 1, 1]⟩ (by decide) rfl (by decide)⟩

/-- Claim C9 counterexample: when the rename fails after the staging
file has been created, `updater.Run` returns the failure but leaves the
staging file `<executable>.new` on the filesystem — no cleanup path
exists, contrary to the claimed guaranteed removal. -/
theorem c9_counterexample_staging_left_on_rename_failure :
    (run faultyRenameUpdater true "" "1.2.0" "linux" "amd64").result =
      Except.error "failed to update coder binary in-place" ∧
    fsLookup (run faultyRenameUpdater true "" "1.2.0" "linux" "amd64").entries
      "/home/coder/bin/coder.new" = some ⟨0o755, []⟩ :=
  ⟨rfl, rfl⟩

/-- Claim C9 amended: in `updater.Run` the successful rename does
consume the staging file (no `.new` entry remains after success), but on
a failure after the staging file is created — such as a rename failure —
the staging file is left behind; only `doUpdate`'s scratch temp
directory has deferred-`RemoveAll` cleanup. -/
theorem c9_amended_success_consumes_staging (u : Updater) (stat : MemFile)
    (bin : List Nat)
    (hre : u.fs.renameError = none)
    (hne : ¬(u.executablePath = u.executablePath ++ ".new")) :
    (runStageAndReplace u stat bin).result = Except.ok () ∧
    fsLookup (runStageAndReplace u stat bin).entries
      (u.executablePath ++ ".new") = none := by
  simp only [runStageAndReplace, hre]
  constructor
  · trivial
  · simp only [fsSet, fsLookup, if_neg hne]
    rw [fsLookup_fsRemove_ne _ _ _ (fun hc => hne hc.symm)]
    exact fsLookup_fsRemove_self _ _

/-- Witness for the amended C9: a successful staged replace on the
sample updater removes the staging file. -/
theorem c9_amended_success_consumes_staging_witness :
    (sampleUpdater.fs.renameError = none ∧
      ¬(sampleUpdater.executablePath = sampleUpdater.executablePath ++ ".new")) ∧
    ((runStageAndReplace sampleUpdater ⟨0o755, [1, 1, 1]⟩ sampleBinary).result =
        Except.ok () ∧
      fsLookup (runStageAndReplace sampleUpdater ⟨0o755, [1, 1, 1]⟩ sampleBinary).entries
        (sampleUpdater.executablePath ++ ".new") = none) :=
  ⟨⟨rfl, by decide⟩,
    c9_amended_success_consumes_staging sampleUpdater ⟨0o755, [1, 1, 1]⟩ sampleBinary
      rfl (by decide)⟩
